import Mathlib

/-!
Verification of the survey-session state machine and submission pipeline of
`streamlit_app.py` (qualitative assessment questionnaire).

The Python source is shallowly embedded below:
* the fixed stimulus list `video_paths` and its length;
* the per-session state (`question_index`, `responses`) with the
  initialization guards, the Previous/Next button handlers and the radio
  answer recording, each as a pure transition function on an explicit
  state record;
* the filename sanitization `re.sub(r'[^\w\-_. ]', '_', name).strip()`
  (Python `\w` is modelled at ASCII: letters, digits and underscore,
  which covers every input appearing in the spec and the claims);
* the submission serialization: the local JSON mapping `new_data`
  (an ordered key/value list, values `Option String` so that a JSON
  `null` is `none`) and the spreadsheet row `row_data`
  (cells `Option String`), both substituting the literal string
  "No Response" for a falsy slot exactly as the Python conditional
  expression `x if x else "No Response"` does;
* the submission control flow as a trace of effects parameterized by the
  outcome of each fallible sink, mirroring the two independent
  try/except blocks followed by the unconditional success message and
  `st.stop()`.
-/

/-- The fixed list of stimulus videos (lines 85-96 of the source). -/
def video_paths : List String :=
  ["./VideoColonoscopy3.mp4",
   "./VideoColonoscopy4.mp4",
   "./VideoColonoscopy5.mp4",
   "./VideoColonoscopy6.mp4",
   "./VideoColonoscopy7.mp4",
   "./VideoColonoscopy8.mp4",
   "./VideoColonoscopy9.mp4",
   "./VideoColonoscopy10.mp4",
   "./VideoColonoscopy11.mp4",
   "./VideoColonoscopy12.mp4"]

/-- An in-progress session after initialization: `st.session_state["question_index"]`
and `st.session_state["responses"]`.  A response slot is `none` (Python `None`)
or `some v` for a recorded string `v`. -/
structure Session where
  question_index : Nat
  responses : List (Option String)
deriving DecidableEq, Repr

/-- The raw session store before initialization: either key may be absent
from `st.session_state`. -/
structure SessionStore where
  question_index : Option Nat
  responses : Option (List (Option String))
deriving DecidableEq, Repr

/-- Lines 98-103: each key is set to its initial value only when it is not
yet present in `st.session_state`. -/
def sessionInitStep (st : SessionStore) : SessionStore :=
  let st1 :=
    match st.question_index with
    | none => { st with question_index := some 0 }
    | some _ => st
  match st1.responses with
  | none => { st1 with responses := some (List.replicate video_paths.length none) }
  | some _ => st1

/-- Lines 133-137: the radio handler stores the response at the current index
when it is "Left" or "Right", and resets the slot to `None` otherwise
(the placeholder "Select an option"). -/
def recordAnswer (s : Session) (response : String) : Session :=
  if response = "Left" ∨ response = "Right" then
    { s with responses := s.responses.set s.question_index (some response) }
  else
    { s with responses := s.responses.set s.question_index none }

/-- Lines 140-143: the Previous button decrements `question_index` when it is
positive; otherwise nothing happens. -/
def prevAction (s : Session) : Session :=
  if 0 < s.question_index then
    { s with question_index := s.question_index - 1 }
  else s

/-- Lines 144-148: the Next button is disabled while the current slot is
`None`, and a click increments `question_index` only below the last index. -/
def nextAction (s : Session) : Session :=
  if s.responses.getD s.question_index none = none then s
  else if s.question_index < video_paths.length - 1 then
    { s with question_index := s.question_index + 1 }
  else s

/-- Python ASCII word character: letter, digit or underscore (the `\w` of the
regular expression at line 158, at ASCII). -/
def isWordChar (c : Char) : Bool :=
  c.isAlpha || c.isDigit || c = '_'

/-- A character kept unchanged by the sanitizer: the class `[\w\-_. ]`. -/
def isSafeChar (c : Char) : Bool :=
  isWordChar c || c = '-' || c = '.' || c = ' '

/-- One character of `re.sub(r'[^\w\-_. ]', '_', name)`: a character outside
the safe class is replaced by an underscore. -/
def subChar (c : Char) : Char :=
  if isSafeChar c then c else '_'

/-- A Python whitespace character as stripped by `str.strip()`. -/
def isPySpace (c : Char) : Bool :=
  c = ' ' || c = '\t' || c = '\n' || c = '\r' || c = '\x0b' || c = '\x0c'

/-- `str.strip()` on a character list: drop whitespace from both ends. -/
def stripList (l : List Char) : List Char :=
  ((l.dropWhile isPySpace).reverse.dropWhile isPySpace).reverse

/-- Line 158: `safe_name = re.sub(r'[^\w\-_. ]', '_', name).strip()`. -/
def safe_name (name : String) : String :=
  String.mk (stripList (name.data.map subChar))

/-- Line 160: `file_name = f"{safe_name}_{timestamp}.json"`. -/
def file_name (name timestamp : String) : String :=
  safe_name name ++ "_" ++ timestamp ++ ".json"

/-- The Python conditional `x if x else "No Response"` on a slot: `None` and
the empty string are falsy, any other string is itself. -/
def orNoResponse (x : Option String) : String :=
  match x with
  | none => "No Response"
  | some s => if s = "" then "No Response" else s

/-- Lines 164-170: the local JSON record, an ordered mapping.  Values are
`Option String`: `none` is the JSON `null` written for "Experience Level"
when the respondent is not a clinician. -/
def new_data (name clinician : String) (experience_level : Option String)
    (responses : List (Option String)) : List (String × Option String) :=
  [("Name", some name),
   ("Clinician", some clinician),
   ("Experience Level", if clinician = "Yes" then experience_level else none)]
  ++ (List.range video_paths.length).map
      (fun i => ("Question " ++ toString (i + 1),
                 some (orNoResponse (responses.getD i none))))

/-- Lines 192-197: the spreadsheet row.  Cells are `Option String`: the
experience cell is the empty string (not `None`) for a non-clinician. -/
def row_data (name clinician : String) (experience_level : Option String)
    (responses : List (Option String)) : List (Option String) :=
  [some name,
   some clinician,
   if clinician = "Yes" then experience_level else some ""]
  ++ (List.range video_paths.length).map
      (fun i => some (orNoResponse (responses.getD i none)))

/-- An observable step of the submission block (lines 172-205). -/
inductive Effect where
  | attemptLocalWrite
  | attemptRemoteAppend
  | errorMsg (msg : String)
  | successMsg
  | halt
deriving DecidableEq, Repr

/-- The submission block as a trace of effects, parameterized by the outcome
of each sink.  Each sink attempt sits in its own try/except: an exception
only adds an `st.error` message, and the `st.success` / `st.stop()` pair at
lines 204-205 runs unconditionally. -/
def submitSinkTrace (localResult remoteResult : Except String Unit) : List Effect :=
  [Effect.attemptLocalWrite]
  ++ (match localResult with
      | Except.ok _ => []
      | Except.error e => [Effect.errorMsg ("Error saving JSON file: " ++ e)])
  ++ [Effect.attemptRemoteAppend]
  ++ (match remoteResult with
      | Except.ok _ => []
      | Except.error e => [Effect.errorMsg ("Error saving to Google Sheets: " ++ e)])
  ++ [Effect.successMsg, Effect.halt]

/-- A session state reachable through the UI: the slot list has one slot per
video, the index addresses a slot, and every slot is unset, "Left" or
"Right". -/
def WF (s : Session) : Prop :=
  s.responses.length = video_paths.length
  ∧ s.question_index < video_paths.length
  ∧ ∀ x ∈ s.responses, x = none ∨ x = some "Left" ∨ x = some "Right"

instance (s : Session) : Decidable (WF s) := by
  unfold WF
  infer_instance

/-- The session right after first initialization. -/
def sessionInit : Session :=
  ⟨0, List.replicate video_paths.length none⟩

/-- `safe_name` modelled from the words of the spec instead: characters
outside the safe class are stripped (removed), not replaced. -/
def spec_safe_name (name : String) : String :=
  String.mk (stripList (name.data.filter isSafeChar))

/-- A concrete well-formed session: first stimulus answered, rest unset. -/
def wfDemo : Session :=
  ⟨0, [some "Left", none, none, none, none, none, none, none, none, none]⟩

/-- A concrete slot list with an unset slot in third position. -/
def gapResponses : List (Option String) :=
  [some "Left", some "Right", none, some "Left", none, none, none, none, none, none]

/-- The fully answered alternating slot list of the Ann scenario. -/
def annResponses : List (Option String) :=
  (List.range video_paths.length).map
    (fun i => if i % 2 = 0 then some "Left" else some "Right")

/-! ## Helper lemmas -/

lemma mem_of_mem_stripList {c : Char} {l : List Char} (h : c ∈ stripList l) :
    c ∈ l := by
  unfold stripList at h
  rw [List.mem_reverse] at h
  have h1 : c ∈ (l.dropWhile isPySpace).reverse :=
    List.Sublist.mem h (List.dropWhile_sublist _)
  rw [List.mem_reverse] at h1
  exact List.Sublist.mem h1 (List.dropWhile_sublist _)

lemma subChar_safe (c : Char) : isSafeChar (subChar c) = true := by
  unfold subChar
  split
  · assumption
  · decide

lemma safe_name_all_safe (name : String) :
    (safe_name name).data.all isSafeChar = true := by
  rw [List.all_eq_true]
  intro c hc
  have h1 : c ∈ name.data.map subChar := mem_of_mem_stripList hc
  rcases List.mem_map.mp h1 with ⟨a, _, rfl⟩
  exact subChar_safe a

lemma getD_response_trichotomy (resp : List (Option String))
    (h : ∀ x ∈ resp, x = none ∨ x = some "Left" ∨ x = some "Right") (i : Nat) :
    resp.getD i none = none ∨ resp.getD i none = some "Left"
      ∨ resp.getD i none = some "Right" := by
  rcases Nat.lt_or_ge i resp.length with hlt | hge
  · rw [List.getD_eq_getElem _ _ hlt]
    exact h _ (List.getElem_mem hlt)
  · left
    exact List.getD_eq_default _ _ hge

lemma new_data_question_entry (name clin : String) (exp : Option String)
    (resp : List (Option String)) (i : Nat) (hi : i < video_paths.length) :
    (new_data name clin exp resp).getD (3 + i) ("", none)
      = ("Question " ++ toString (i + 1),
         some (orNoResponse (resp.getD i none))) := by
  unfold new_data
  rw [List.getD_append_right _ _ _ _ (by simp)]
  have hl : [("Name", some name), ("Clinician", some clin),
      ("Experience Level", if clin = "Yes" then exp else none)].length = 3 := rfl
  rw [hl, show 3 + i - 3 = i from by omega]
  have him : i < ((List.range video_paths.length).map
      (fun j => ("Question " ++ toString (j + 1),
        some (orNoResponse (resp.getD j none))))).length := by
    simp only [List.length_map, List.length_range]
    omega
  rw [List.getD_eq_getElem _ _ him, List.getElem_map, List.getElem_range]

lemma row_data_answer_cell (name clin : String) (exp : Option String)
    (resp : List (Option String)) (i : Nat) (hi : i < video_paths.length) :
    (row_data name clin exp resp).getD (3 + i) none
      = some (orNoResponse (resp.getD i none)) := by
  unfold row_data
  rw [List.getD_append_right _ _ _ _ (by simp)]
  have hl : [some name, some clin,
      if clin = "Yes" then exp else some ""].length = 3 := rfl
  rw [hl, show 3 + i - 3 = i from by omega]
  have him : i < ((List.range video_paths.length).map
      (fun j => some (orNoResponse (resp.getD j none)))).length := by
    simp only [List.length_map, List.length_range]
    omega
  rw [List.getD_eq_getElem _ _ him, List.getElem_map, List.getElem_range]

/-! ## Claim theorems -/

/-- C1, counterexample: the sanitizer does not strip the apostrophe and the
slash from "O'Brien/Smith 3" — it replaces each with an underscore, so the
sanitized base name is "O_Brien_Smith 3", not the "OBrienSmith 3" the claim
asserts.  A strip-style sanitizer (`spec_safe_name`, modelled from the words
of the spec) would indeed give "OBrienSmith 3". -/
theorem C1_counterexample :
    safe_name "O'Brien/Smith 3" ≠ "OBrienSmith 3"
    ∧ safe_name "O'Brien/Smith 3" = "O_Brien_Smith 3"
    ∧ spec_safe_name "O'Brien/Smith 3" = "OBrienSmith 3" := by
  decide

/-- C1, amended: the local record name is derived by replacing (not
stripping) every character outside the class {word characters, hyphen,
underscore, period, space} with an underscore; "O'Brien/Smith 3" yields the
sanitized base name "O_Brien_Smith 3", and every character of every
sanitized name lies in the safe class. -/
theorem C1_sanitize_replaces_with_underscore :
    safe_name "O'Brien/Smith 3" = "O_Brien_Smith 3"
    ∧ ∀ name : String, (safe_name name).data.all isSafeChar = true :=
  ⟨by decide, safe_name_all_safe⟩

/-- C4: a failing local sink still emits its error message, the remote sink
is attempted for every local outcome, and every trace of the submission
block ends with the success signal followed by the halt of interactive
updates. -/
theorem C4_sink_isolation (e : String) (rr : Except String Unit) :
    (∀ lr : Except String Unit,
      Effect.attemptRemoteAppend ∈ submitSinkTrace lr rr)
    ∧ Effect.errorMsg ("Error saving JSON file: " ++ e)
        ∈ submitSinkTrace (Except.error e) rr
    ∧ ∀ lr rr2 : Except String Unit, ∃ pre,
        submitSinkTrace lr rr2 = pre ++ [Effect.successMsg, Effect.halt] := by
  refine ⟨?_, ?_, ?_⟩
  · intro lr
    cases lr <;> cases rr <;> simp [submitSinkTrace]
  · cases rr <;> simp [submitSinkTrace]
  · intro lr rr2
    cases lr with
    | ok u =>
      cases rr2 with
      | ok v =>
        exact ⟨[Effect.attemptLocalWrite, Effect.attemptRemoteAppend],
          by simp [submitSinkTrace]⟩
      | error f =>
        exact ⟨[Effect.attemptLocalWrite, Effect.attemptRemoteAppend,
          Effect.errorMsg ("Error saving to Google Sheets: " ++ f)],
          by simp [submitSinkTrace]⟩
    | error g =>
      cases rr2 with
      | ok v =>
        exact ⟨[Effect.attemptLocalWrite,
          Effect.errorMsg ("Error saving JSON file: " ++ g),
          Effect.attemptRemoteAppend],
          by simp [submitSinkTrace]⟩
      | error f =>
        exact ⟨[Effect.attemptLocalWrite,
          Effect.errorMsg ("Error saving JSON file: " ++ g),
          Effect.attemptRemoteAppend,
          Effect.errorMsg ("Error saving to Google Sheets: " ++ f)],
          by simp [submitSinkTrace]⟩

/-- C5, counterexample: two distinct respondent names that sanitize to the
same base name produce the same record filename whenever the two
submissions fall in the same second (equal second-resolution timestamps),
so the scheme does not guarantee filename uniqueness. -/
theorem C5_counterexample :
    ("Ann/" : String) ≠ "Ann@"
    ∧ file_name "Ann/" "20260101_120000" = file_name "Ann@" "20260101_120000" := by
  decide

/-- C5, amended: the record filenames of two submissions are distinct
whenever their second-resolution timestamps differ (timestamps share the
fixed 15-character format, hence equal length); uniqueness is not guaranteed
when two submissions share the same timestamp second. -/
theorem C5_distinct_when_timestamps_differ (n1 n2 t1 t2 : String)
    (hlen : t1.length = t2.length) (hne : t1 ≠ t2) :
    file_name n1 t1 ≠ file_name n2 t2 := by
  intro h
  unfold file_name at h
  have hd := congrArg String.data h
  simp only [String.data_append] at hd
  have hl : t1.data.length = t2.data.length := hlen
  have h2 := List.append_cancel_right hd
  have h3 := (List.append_inj' h2 hl).2
  exact hne (String.ext h3)

/-- C5 witness: two submissions one second apart never collide. -/
theorem C5_distinct_when_timestamps_differ_witness :
    ("20260101_120000" : String).length = ("20260101_120001" : String).length
    ∧ ("20260101_120000" : String) ≠ "20260101_120001"
    ∧ file_name "Ann" "20260101_120000" ≠ file_name "Ann" "20260101_120001" :=
  ⟨by decide, by decide,
   C5_distinct_when_timestamps_differ "Ann" "Ann" "20260101_120000"
     "20260101_120001" (by decide) (by decide)⟩

/-- C6: initializing a fresh store sets the index to 0 and all slots to
unset; initializing an already-initialized store changes nothing (so no
answer and no position is ever reset by a page reload), and initialization
is idempotent on every store. -/
theorem C6_init_idempotent (qi : Nat) (rs : List (Option String)) :
    sessionInitStep ⟨none, none⟩
      = ⟨some 0, some (List.replicate video_paths.length none)⟩
    ∧ sessionInitStep ⟨some qi, some rs⟩ = ⟨some qi, some rs⟩
    ∧ ∀ st : SessionStore, sessionInitStep (sessionInitStep st)
        = sessionInitStep st := by
  refine ⟨rfl, rfl, ?_⟩
  intro st
  obtain ⟨q, r⟩ := st
  cases q <;> cases r <;> rfl

/-- C7: the Previous action never inspects the answers: from any positive
index it decrements by one and keeps every answer, and at index 0 it leaves
the state unchanged. -/
theorem C7_previous_unrestricted (i : Nat) (rs : List (Option String)) :
    prevAction ⟨i + 1, rs⟩ = ⟨i, rs⟩ ∧ prevAction ⟨0, rs⟩ = ⟨0, rs⟩ := by
  constructor
  · simp [prevAction]
  · rfl

/-- C10: the sanitizer touches only the filename — the "Name" field of the
local JSON record and the first cell of the spreadsheet row both hold the
respondent name exactly as entered. -/
theorem C10_raw_name_in_record (name clin : String) (exp : Option String)
    (resp : List (Option String)) :
    (new_data name clin exp resp).getD 0 ("", none) = ("Name", some name)
    ∧ (row_data name clin exp resp).getD 0 none = some name :=
  ⟨rfl, rfl⟩

/-- C2: on a well-formed session the Next action never changes the answers;
it increments the index by exactly one precisely when the current slot holds
"Left" or "Right" and the index is below the last one, and in every other
case the whole state is unchanged. -/
theorem C2_next_gate (s : Session) (h : WF s) :
    (nextAction s).responses = s.responses
    ∧ ((nextAction s).question_index = s.question_index + 1
        ↔ (s.responses.getD s.question_index none = some "Left"
            ∨ s.responses.getD s.question_index none = some "Right")
          ∧ s.question_index < video_paths.length - 1)
    ∧ (nextAction s = s
        ↔ ¬ ((s.responses.getD s.question_index none = some "Left"
            ∨ s.responses.getD s.question_index none = some "Right")
          ∧ s.question_index < video_paths.length - 1)) := by
  obtain ⟨hlen, hidx, hvals⟩ := h
  have htri := getD_response_trichotomy s.responses hvals s.question_index
  rcases htri with h0 | h0 | h0
  · have hna : nextAction s = s := by
      unfold nextAction
      rw [if_pos h0]
    have hno : ¬ ((s.responses.getD s.question_index none = some "Left"
        ∨ s.responses.getD s.question_index none = some "Right")
        ∧ s.question_index < video_paths.length - 1) := by
      intro hc
      rcases hc.1 with h' | h' <;> rw [h0] at h' <;> exact Option.noConfusion h'
    refine ⟨by rw [hna], ?_, ?_⟩
    · rw [hna]
      apply iff_of_false
      · omega
      · exact hno
    · rw [hna]
      exact iff_of_true rfl hno
  all_goals
    have hor : s.responses.getD s.question_index none = some "Left"
        ∨ s.responses.getD s.question_index none = some "Right" := by
      first
        | exact Or.inl h0
        | exact Or.inr h0
  all_goals
    have hne : ¬ s.responses.getD s.question_index none = none := by
      rcases hor with h' | h' <;> rw [h'] <;> exact fun hc => Option.noConfusion hc
  all_goals
    by_cases h1 : s.question_index < video_paths.length - 1
  case pos | pos =>
    have hna : nextAction s = { s with question_index := s.question_index + 1 } := by
      unfold nextAction
      rw [if_neg hne, if_pos h1]
    refine ⟨by rw [hna], ?_, ?_⟩
    · rw [hna]
      exact iff_of_true rfl ⟨hor, h1⟩
    · rw [hna]
      apply iff_of_false
      · intro heq
        have hq : s.question_index + 1 = s.question_index :=
          congrArg Session.question_index heq
        omega
      · exact fun hn => hn ⟨hor, h1⟩
  case neg | neg =>
    have hna : nextAction s = s := by
      unfold nextAction
      rw [if_neg hne, if_neg h1]
    refine ⟨by rw [hna], ?_, ?_⟩
    · rw [hna]
      apply iff_of_false
      · omega
      · exact fun hc => h1 hc.2
    · rw [hna]
      exact iff_of_true rfl (fun hc => h1 hc.2)

/-- C2 witness: at index 0 of a session whose first slot holds "Left", the
Next action advances to index 1. -/
theorem C2_next_gate_witness :
    WF wfDemo
    ∧ ((nextAction wfDemo).responses = wfDemo.responses
      ∧ ((nextAction wfDemo).question_index = wfDemo.question_index + 1
          ↔ (wfDemo.responses.getD wfDemo.question_index none = some "Left"
              ∨ wfDemo.responses.getD wfDemo.question_index none = some "Right")
            ∧ wfDemo.question_index < video_paths.length - 1)
      ∧ (nextAction wfDemo = wfDemo
          ↔ ¬ ((wfDemo.responses.getD wfDemo.question_index none = some "Left"
              ∨ wfDemo.responses.getD wfDemo.question_index none = some "Right")
            ∧ wfDemo.question_index < video_paths.length - 1))) :=
  ⟨by decide, C2_next_gate wfDemo (by decide)⟩

/-- C3: for every position, the serialized "Question i+1" entry of the local
record and the matching cell of the spreadsheet row hold one and the same
string value: the recorded answer when the slot is set and the literal
"No Response" when it is unset — never a null and never the empty string,
whatever the position of the unset slot. -/
theorem C3_no_response_substitution (name clin : String) (exp : Option String)
    (resp : List (Option String))
    (h : ∀ x ∈ resp, x = none ∨ x = some "Left" ∨ x = some "Right")
    (i : Nat) (hi : i < video_paths.length) :
    ∃ v : String,
      (new_data name clin exp resp).getD (3 + i) ("", none)
        = ("Question " ++ toString (i + 1), some v)
      ∧ (row_data name clin exp resp).getD (3 + i) none = some v
      ∧ v ≠ ""
      ∧ (resp.getD i none = none → v = "No Response")
      ∧ ∀ a, resp.getD i none = some a → v = a := by
  refine ⟨orNoResponse (resp.getD i none),
    new_data_question_entry name clin exp resp i hi,
    row_data_answer_cell name clin exp resp i hi, ?_, ?_, ?_⟩
  · rcases getD_response_trichotomy resp h i with h0 | h0 | h0 <;>
      rw [h0] <;> decide
  · intro h0
    rw [h0]
    rfl
  · intro a ha
    rcases getD_response_trichotomy resp h i with h0 | h0 | h0
    · rw [h0] at ha
      exact Option.noConfusion ha
    · rw [h0] at ha ⊢
      have hv : "Left" = a := Option.some.inj ha
      subst hv
      decide
    · rw [h0] at ha ⊢
      have hv : "Right" = a := Option.some.inj ha
      subst hv
      decide

/-- C3 witness: with the third slot unset, entry 5 of the local record is
("Question 3", "No Response") and cell 5 of the spreadsheet row is the same
"No Response" string. -/
theorem C3_no_response_substitution_witness :
    (∀ x ∈ gapResponses, x = none ∨ x = some "Left" ∨ x = some "Right")
    ∧ 2 < video_paths.length
    ∧ ∃ v : String,
        (new_data "Ann" "No" none gapResponses).getD (3 + 2) ("", none)
          = ("Question " ++ toString (2 + 1), some v)
        ∧ (row_data "Ann" "No" none gapResponses).getD (3 + 2) none = some v
        ∧ v ≠ ""
        ∧ (gapResponses.getD 2 none = none → v = "No Response")
        ∧ ∀ a, gapResponses.getD 2 none = some a → v = a :=
  ⟨by decide, by decide,
   C3_no_response_substitution "Ann" "No" none gapResponses (by decide) 2 (by decide)⟩

/-- C8: for a non-clinician who answered every stimulus, the local record
holds the raw name, the clinician flag "No", an "Experience Level" value of
`none` (JSON null, not a string), and each "Question i+1" entry holding the
recorded answer; the spreadsheet row is exactly
[name, "No", empty string (not null), one cell per recorded answer] in that
order. -/
theorem C8_nonclinician_record (name : String) (exp : Option String)
    (resp : List (Option String))
    (hvals : ∀ x ∈ resp, x = none ∨ x = some "Left" ∨ x = some "Right")
    (hset : ∀ i, i < video_paths.length → resp.getD i none ≠ none) :
    (new_data name "No" exp resp).getD 0 ("", none) = ("Name", some name)
    ∧ (new_data name "No" exp resp).getD 1 ("", none) = ("Clinician", some "No")
    ∧ (new_data name "No" exp resp).getD 2 ("", none) = ("Experience Level", none)
    ∧ (∀ i, i < video_paths.length →
        (new_data name "No" exp resp).getD (3 + i) ("", none)
          = ("Question " ++ toString (i + 1), resp.getD i none))
    ∧ row_data name "No" exp resp
        = [some name, some "No", some ""]
          ++ (List.range video_paths.length).map (fun i => resp.getD i none) := by
  have hslot : ∀ i, i < video_paths.length →
      some (orNoResponse (resp.getD i none)) = resp.getD i none := by
    intro i hi
    rcases getD_response_trichotomy resp hvals i with h0 | h0 | h0
    · exact absurd h0 (hset i hi)
    · rw [h0]
      decide
    · rw [h0]
      decide
  refine ⟨rfl, rfl, rfl, ?_, ?_⟩
  · intro i hi
    rw [new_data_question_entry name "No" exp resp i hi, hslot i hi]
  · unfold row_data
    have hmap : (List.range video_paths.length).map
        (fun i => some (orNoResponse (resp.getD i none)))
        = (List.range video_paths.length).map (fun i => resp.getD i none) :=
      List.map_congr_left (fun a ha => hslot a (List.mem_range.mp ha))
    rw [hmap]
    rfl

/-- C8 witness: the Ann scenario — non-clinician, all ten stimuli answered
alternating Left/Right. -/
theorem C8_nonclinician_record_witness :
    (∀ x ∈ annResponses, x = none ∨ x = some "Left" ∨ x = some "Right")
    ∧ (∀ i, i < video_paths.length → annResponses.getD i none ≠ none)
    ∧ ((new_data "Ann" "No" none annResponses).getD 0 ("", none)
        = ("Name", some "Ann")
      ∧ (new_data "Ann" "No" none annResponses).getD 1 ("", none)
        = ("Clinician", some "No")
      ∧ (new_data "Ann" "No" none annResponses).getD 2 ("", none)
        = ("Experience Level", none)
      ∧ (∀ i, i < video_paths.length →
          (new_data "Ann" "No" none annResponses).getD (3 + i) ("", none)
            = ("Question " ++ toString (i + 1), annResponses.getD i none))
      ∧ row_data "Ann" "No" none annResponses
          = [some "Ann", some "No", some ""]
            ++ (List.range video_paths.length).map
                (fun i => annResponses.getD i none)) :=
  ⟨by decide, by decide,
   C8_nonclinician_record "Ann" none annResponses (by decide) (by decide)⟩

/-- C9: the index invariant 0 ≤ question_index < N holds at initialization
and is preserved by the Next, Previous and record-answer transitions. -/
theorem C9_index_in_range (s : Session) (r : String)
    (h : s.question_index < video_paths.length) :
    sessionInit.question_index < video_paths.length
    ∧ (nextAction s).question_index < video_paths.length
    ∧ (prevAction s).question_index < video_paths.length
    ∧ (recordAnswer s r).question_index < video_paths.length := by
  refine ⟨by decide, ?_, ?_, ?_⟩
  · unfold nextAction
    by_cases h1 : s.responses.getD s.question_index none = none
    · rw [if_pos h1]
      exact h
    · rw [if_neg h1]
      by_cases h2 : s.question_index < video_paths.length - 1
      · rw [if_pos h2]
        show s.question_index + 1 < video_paths.length
        omega
      · rw [if_neg h2]
        exact h
  · unfold prevAction
    by_cases h1 : 0 < s.question_index
    · rw [if_pos h1]
      show s.question_index - 1 < video_paths.length
      omega
    · rw [if_neg h1]
      exact h
  · unfold recordAnswer
    by_cases h1 : r = "Left" ∨ r = "Right"
    · rw [if_pos h1]
      exact h
    · rw [if_neg h1]
      exact h

/-- C9 witness: the invariant holds and is preserved at the freshly
initialized session with answer "Left". -/
theorem C9_index_in_range_witness :
    sessionInit.question_index < video_paths.length
    ∧ (sessionInit.question_index < video_paths.length
      ∧ (nextAction sessionInit).question_index < video_paths.length
      ∧ (prevAction sessionInit).question_index < video_paths.length
      ∧ (recordAnswer sessionInit "Left").question_index < video_paths.length) :=
  ⟨by decide, C9_index_in_range sessionInit "Left" (by decide)⟩
